import Mathlib

/-!
Shallow embedding of `src/mcp/workflow/agents/cardano_agent.py`
(CoinCeylon/smart-legal-contracts): the LangGraph-based conversational
agent control loop.

Modelling conventions:
* LangChain messages (`SystemMessage`, `HumanMessage`, `AIMessage` with
  its `tool_calls` field, `ToolMessage`) become the inductive `Msg`.
* The graph state `AgentState` (TypedDict, lines 15-19) becomes a Lean
  structure; the `add_messages` reducer on the `messages` channel is an
  append (messages carry no ids, so LangGraph assigns fresh ids and
  concatenates), while `user_query`, `context`, `response` are last-value
  channels overwritten by the input.
* The remote LLM is an oracle `model : List Msg → Except String Msg`
  (`Except.error e` models a raised exception whose `str` is `e`); a tool
  execution is an oracle `runTool : ToolCall → String` giving the content
  of the resulting `ToolMessage` (the prebuilt `ToolNode` folds tool
  errors into that content, so `runTool` is total).
* The `MemorySaver` checkpointer is a store keyed by the Python value
  used as `thread_id` in the config.  Python distinguishes the int key
  `1` from the str key `"1"`, so keys are the sum type `PyKey`
  (`is_new_thread` queries under `str(thread_id)`, line 97, while `chat`
  invokes under the unconverted `thread_id`, line 121).
* The loop `agent → (tools → agent)* → END` is given fuel: `none` means
  the run is still going after `fuel` model calls (the Python loop would
  simply still be running); it is not an error.  The checkpoint visible
  to later calls is the one saved when `graph.invoke` returns.
-/

/-- A LangChain tool call (`id`, `name`, and its serialized arguments)
as carried by `AIMessage.tool_calls`. -/
structure ToolCall where
  id : String
  name : String
  args : String
deriving DecidableEq

/-- A LangChain message.  Only `AIMessage` (`Msg.ai`) has a `tool_calls`
attribute; `Msg.tool` is a `ToolMessage` whose `tool_call_id` links it to
the requesting call. -/
inductive Msg where
  | system (content : String)
  | human (content : String)
  | ai (content : String) (tool_calls : List ToolCall)
  | tool (tool_call_id : String) (content : String)
deriving DecidableEq

/-- The `.content` attribute, present on every `BaseMessage` subclass. -/
def msg_content : Msg → String
  | Msg.system c => c
  | Msg.human c => c
  | Msg.ai c _ => c
  | Msg.tool _ c => c

/-- Is this message a `SystemMessage`? -/
def is_system : Msg → Bool
  | Msg.system _ => true
  | _ => false

/-- `AgentState` (cardano_agent.py lines 15-19): `messages` with the
`add_messages` reducer, plus three plain (last-value) string channels. -/
structure AgentState where
  messages : List Msg
  user_query : String
  context : String
  response : String
deriving DecidableEq

/-- `hasattr(m, 'tool_calls') and m.tool_calls` (lines 59-60): true
exactly when the message is an `AIMessage` with a non-empty
`tool_calls` list. -/
def has_tool_calls : Msg → Bool
  | Msg.ai _ tcs => !tcs.isEmpty
  | _ => false

/-- `should_continue` (lines 57-61): inspect the last message only; route
to `"tools"` iff it carries tool calls, else `"end"`.  Python's
`state["messages"][-1]` would raise on an empty list; in the compiled
graph this function only runs right after `call_model` appended a reply,
so `messages` is never empty there and the `none` arm is unreachable. -/
def should_continue (state : AgentState) : String :=
  match state.messages.getLast? with
  | some last => if has_tool_calls last then "tools" else "end"
  | none => "end"

/-- `call_model` (lines 63-66) combined with the `add_messages` reducer:
invoke the model on the transcript and append its reply; a raised
exception propagates. -/
def call_model (model : List Msg → Except String Msg) (s : AgentState) :
    Except String AgentState :=
  match model s.messages with
  | Except.error e => Except.error e
  | Except.ok r => Except.ok { s with messages := s.messages ++ [r] }

/-- The prebuilt `ToolNode` registered as the `"tools"` node (line 74)
combined with the `add_messages` reducer: read the last message's
`tool_calls` and append one `ToolMessage` per call, in order, each
carrying the requesting call's id.  The node is only reached when
`should_continue` returned `"tools"`, i.e. the last message is an
`AIMessage` with non-empty `tool_calls`; the catch-all arm is
unreachable. -/
def tool_node (runTool : ToolCall → String) (s : AgentState) : AgentState :=
  match s.messages.getLast? with
  | some (Msg.ai _ tcs) =>
      { s with messages := s.messages ++ tcs.map fun tc => Msg.tool tc.id (runTool tc) }
  | _ => s

/-- The compiled graph's loop (lines 75-85): `START → agent`, then
`should_continue` routes to `tools` (and back to `agent`) or to `END`.
`fuel` bounds the number of model calls we unfold; `none` means the run
is still alternating after `fuel` rounds. -/
def run_loop (model : List Msg → Except String Msg) (runTool : ToolCall → String) :
    Nat → AgentState → Option (Except String AgentState)
  | 0, _ => none
  | fuel + 1, s =>
    match call_model model s with
    | Except.error e => some (Except.error e)
    | Except.ok s1 =>
      if should_continue s1 = "tools" then
        run_loop model runTool fuel (tool_node runTool s1)
      else
        some (Except.ok s1)

/-- A Python value usable as a checkpointer `thread_id` key: the code
passes an `int` in `chat` (line 121) but `str(thread_id)` in
`is_new_thread` (line 97), and a Python dict keeps `1` and `"1"`
distinct. -/
inductive PyKey where
  | pyInt (n : Int)
  | pyStr (s : String)
deriving DecidableEq

/-- Python's `str()` on a key value. -/
def pyStr_of : PyKey → PyKey
  | PyKey.pyInt n => PyKey.pyStr (toString n)
  | PyKey.pyStr s => PyKey.pyStr s

/-- The `MemorySaver` checkpoint store: latest saved `AgentState` per
thread key. -/
abbrev Store := List (PyKey × AgentState)

/-- Look up the latest checkpointed state for a key. -/
def Store.get : Store → PyKey → Option AgentState
  | [], _ => none
  | (k1, v) :: rest, k => if k1 = k then some v else Store.get rest k

/-- Save a checkpoint for a key (overwrite or insert). -/
def Store.set : Store → PyKey → AgentState → Store
  | [], k, v => [(k, v)]
  | (k1, v1) :: rest, k, v =>
      if k1 = k then (k, v) :: rest else (k1, v1) :: Store.set rest k v

/-- The checkpointed transcript for a key (empty when the thread was
never seen). -/
def msgs_of (store : Store) (k : PyKey) : List Msg :=
  match Store.get store k with
  | some st => st.messages
  | none => []

/-- `CardanoAgent.is_new_thread` (lines 91-101): query the graph state
under the key `str(thread_id)` and report whether it is empty. -/
def is_new_thread (store : Store) (thread_id : PyKey) : Bool :=
  (Store.get store (pyStr_of thread_id)).isNone

/-- `graph.invoke(initial_state, config)`'s input phase: restore the
checkpointed channels for the key and apply the input as channel writes
(`add_messages` appends to `messages`; the three string channels are
overwritten). -/
def merge_input (store : Store) (key : PyKey) (input : AgentState) : AgentState :=
  { input with messages := msgs_of store key ++ input.messages }

/-- `graph.invoke(initial_state, config)` (line 122): merge the input
with the checkpoint under `key`, run the loop, and on normal completion
save the final state under the same (unconverted) key. -/
def graph_invoke (model : List Msg → Except String Msg) (runTool : ToolCall → String)
    (fuel : Nat) (store : Store) (key : PyKey) (input : AgentState) :
    Option (Except String (AgentState × Store)) :=
  match run_loop model runTool fuel (merge_input store key input) with
  | none => none
  | some (Except.error e) => some (Except.error e)
  | some (Except.ok s2) => some (Except.ok (s2, Store.set store key s2))

/-- The final-message extraction of `chat` (lines 123-127): Python's
`hasattr(final_message, 'content')` probe.  `PyObj.msg` is a
`BaseMessage` (always has `.content`); `PyObj.other` is any object
without a `content` attribute, carrying its `str()` rendering. -/
inductive PyObj where
  | msg (m : Msg)
  | other (str_repr : String)
deriving DecidableEq

/-- Lines 123-127: return `.content` when the attribute exists, else the
`str()` of the object. -/
def final_to_text : PyObj → String
  | PyObj.msg m => msg_content m
  | PyObj.other r => r

/-- The initial state built by `chat` (lines 106-120): prepend the system
prompt exactly when `is_new_thread` says the thread is new, then the
user's `HumanMessage`; `user_query` is the input, `context` and
`response` start empty. -/
def chat_initial (system_prompt : String) (store : Store) (thread_id : PyKey)
    (user_input : String) : AgentState :=
  { messages :=
      (if is_new_thread store thread_id then [Msg.system system_prompt] else [])
        ++ [Msg.human user_input],
    user_query := user_input,
    context := "",
    response := "" }

/-- `chat` (lines 103-129): build the initial state, invoke the graph
under the unconverted `thread_id`, and extract the final message's text.
Any exception raised inside the `try` block is caught and turned into the
apologetic message containing `str(e)` (for an exception raised before
`graph.invoke` returns, the store is the one from before the call; the
`[-1]` lookup on an empty result list would raise an `IndexError` whose
`str` is `"list index out of range"`, after the checkpoint was already
saved).  `none` models a run that is still looping (fuel exhausted), not
an exception. -/
def chat (model : List Msg → Except String Msg) (runTool : ToolCall → String)
    (fuel : Nat) (system_prompt : String) (store : Store) (thread_id : PyKey)
    (user_input : String) : Option (String × Store) :=
  match graph_invoke model runTool fuel store thread_id
      (chat_initial system_prompt store thread_id user_input) with
  | none => none
  | some (Except.error e) =>
      some ("I encountered an error while processing your request: " ++ e, store)
  | some (Except.ok (result, store2)) =>
      match result.messages.getLast? with
      | none =>
          some ("I encountered an error while processing your request: list index out of range",
                store2)
      | some m => some (final_to_text (PyObj.msg m), store2)

/-- A model oracle that never raises: every reply is delivered. -/
def okModel (m0 : List Msg → Msg) : List Msg → Except String Msg :=
  fun msgs => Except.ok (m0 msgs)

/-- One full Deciding-then-Invoking round for a non-raising model: append
the model's reply, then append the matching tool results. -/
def agent_round (m0 : List Msg → Msg) (runTool : ToolCall → String)
    (s : AgentState) : AgentState :=
  tool_node runTool { s with messages := s.messages ++ [m0 s.messages] }

/-- The state presented to the model at the start of round `k` (i.e.
after `k` complete Deciding-then-Invoking rounds from `s`). -/
def pre_round (m0 : List Msg → Msg) (runTool : ToolCall → String) :
    AgentState → Nat → AgentState
  | s, 0 => s
  | s, k + 1 => pre_round m0 runTool (agent_round m0 runTool s) k

/-- Submitting a sequence of user inputs to the same thread, one `chat`
call each, threading the store through; `none` when some call ran out of
fuel. -/
def run_chats (model : List Msg → Except String Msg) (runTool : ToolCall → String)
    (fuel : Nat) (system_prompt : String) (thread_id : PyKey) :
    List String → Store → Option Store
  | [], store => some store
  | ui :: rest, store =>
    match chat model runTool fuel system_prompt store thread_id ui with
    | none => none
    | some (_, store2) => run_chats model runTool fuel system_prompt thread_id rest store2

/-- A demonstration model that always answers `"hello"` directly. -/
def demoReply : List Msg → Msg := fun _ => Msg.ai "hello" []

/-- The demonstration model as a (never-raising) oracle. -/
def demoModel : List Msg → Except String Msg := okModel demoReply

/-- A demonstration tool executor. -/
def demoTool : ToolCall → String := fun _ => "tool-output"

/-- The state the loop actually starts from inside `chat`'s
`graph.invoke` call. -/
def loop_input (sp : String) (store : Store) (tid : PyKey) (ui : String) : AgentState :=
  merge_input store tid (chat_initial sp store tid ui)

/-- The loop's start state on a thread with no visible history: system
prompt then the user's message. -/
def fresh_state (sp ui : String) : AgentState :=
  { messages := [Msg.system sp, Msg.human ui],
    user_query := ui, context := "", response := "" }

/-- A model oracle that always raises. -/
def failModel : List Msg → Except String Msg := fun _ => Except.error "boom"

/-- A model that requests one blockchain tool on the first round (when
the transcript is just system + user) and answers in text afterwards. -/
def twoPhaseReply : List Msg → Msg := fun msgs =>
  if msgs.length ≤ 2 then
    Msg.ai "checking" [{ id := "call1", name := "get_address_details", args := "addr1" }]
  else Msg.ai "done" []

/-- A one-user-message working state, for witnesses. -/
def demoState : AgentState :=
  { messages := [Msg.human "hi"], user_query := "hi", context := "", response := "" }

/-- `demoState` after one direct answer from `demoModel`. -/
def demoState1 : AgentState :=
  { messages := [Msg.human "hi", Msg.ai "hello" []],
    user_query := "hi", context := "", response := "" }

/-- The final state of a first `chat "hi"` on a fresh thread with
`demoModel`. -/
def demoFinal : AgentState :=
  { messages := [Msg.system "SYS", Msg.human "hi", Msg.ai "hello" []],
    user_query := "hi", context := "", response := "" }

/-- The final state after a second `chat "again"` on the same integer
thread id: the system prompt got prepended a second time. -/
def demoFinal2 : AgentState :=
  { messages := [Msg.system "SYS", Msg.human "hi", Msg.ai "hello" [],
                 Msg.system "SYS", Msg.human "again", Msg.ai "hello" []],
    user_query := "again", context := "", response := "" }

/-- The store after submitting `"a"` then `"b"` to integer thread `5`
with `demoModel` (the system prompt is prepended on both runs, again due
to the key mismatch). -/
def chatTwiceStore : Store :=
  [(PyKey.pyInt 5,
    { messages := [Msg.system "SYS", Msg.human "a", Msg.ai "hello" [],
                   Msg.system "SYS", Msg.human "b", Msg.ai "hello" []],
      user_query := "b", context := "", response := "" })]

/-! ### Helper lemmas about single steps of the loop -/

lemma should_continue_concat (s : AgentState) (r : Msg) :
    should_continue { s with messages := s.messages ++ [r] }
      = if has_tool_calls r then "tools" else "end" := by
  unfold should_continue
  simp [List.getLast?_concat]

lemma call_model_okModel (m0 : List Msg → Msg) (s : AgentState) :
    call_model (okModel m0) s
      = Except.ok { s with messages := s.messages ++ [m0 s.messages] } := rfl

lemma call_model_frame (model : List Msg → Except String Msg) (s s1 : AgentState)
    (h : call_model model s = Except.ok s1) :
    s1.user_query = s.user_query ∧ s1.context = s.context ∧ s1.response = s.response := by
  unfold call_model at h
  split at h
  · exact absurd h (by simp)
  · cases h
    exact ⟨rfl, rfl, rfl⟩

lemma call_model_extends (model : List Msg → Except String Msg) (s s1 : AgentState)
    (h : call_model model s = Except.ok s1) :
    ∃ r, s1.messages = s.messages ++ [r] := by
  unfold call_model at h
  split at h
  · exact absurd h (by simp)
  · cases h
    exact ⟨_, rfl⟩

lemma tool_node_frame (runTool : ToolCall → String) (s : AgentState) :
    (tool_node runTool s).user_query = s.user_query
      ∧ (tool_node runTool s).context = s.context
      ∧ (tool_node runTool s).response = s.response := by
  unfold tool_node
  cases h : s.messages.getLast? with
  | none => exact ⟨rfl, rfl, rfl⟩
  | some m => cases m <;> exact ⟨rfl, rfl, rfl⟩

lemma tool_node_extends (runTool : ToolCall → String) (s : AgentState) :
    ∃ t, (tool_node runTool s).messages = s.messages ++ t := by
  unfold tool_node
  cases h : s.messages.getLast? with
  | none => exact ⟨[], by simp⟩
  | some m =>
    cases m with
    | system c => exact ⟨[], by simp⟩
    | human c => exact ⟨[], by simp⟩
    | ai c tcs => exact ⟨_, rfl⟩
    | tool i c => exact ⟨[], by simp⟩

lemma tool_node_concat_ai (runTool : ToolCall → String) (s : AgentState)
    (c : String) (tcs : List ToolCall) :
    tool_node runTool { s with messages := s.messages ++ [Msg.ai c tcs] }
      = { s with messages := (s.messages ++ [Msg.ai c tcs])
            ++ tcs.map fun tc => Msg.tool tc.id (runTool tc) } := by
  unfold tool_node
  simp [List.getLast?_concat]

lemma run_loop_succ_of_error (model : List Msg → Except String Msg)
    (runTool : ToolCall → String) (fuel : Nat) (s : AgentState) (e : String)
    (h : model s.messages = Except.error e) :
    run_loop model runTool (fuel + 1) s = some (Except.error e) := by
  have hcm : call_model model s = Except.error e := by
    unfold call_model
    rw [h]
  simp only [run_loop, hcm]

lemma run_loop_succ_of_ok (model : List Msg → Except String Msg)
    (runTool : ToolCall → String) (fuel : Nat) (s : AgentState) (reply : Msg)
    (h : model s.messages = Except.ok reply) :
    run_loop model runTool (fuel + 1) s
      = if has_tool_calls reply then
          run_loop model runTool fuel
            (tool_node runTool { s with messages := s.messages ++ [reply] })
        else some (Except.ok { s with messages := s.messages ++ [reply] }) := by
  have hcm : call_model model s
      = Except.ok { s with messages := s.messages ++ [reply] } := by
    unfold call_model
    rw [h]
  simp only [run_loop, hcm, should_continue_concat]
  cases has_tool_calls reply <;> simp

lemma run_loop_okModel_succ (m0 : List Msg → Msg) (runTool : ToolCall → String)
    (fuel : Nat) (s : AgentState) :
    run_loop (okModel m0) runTool (fuel + 1) s
      = if has_tool_calls (m0 s.messages) then
          run_loop (okModel m0) runTool fuel (agent_round m0 runTool s)
        else some (Except.ok { s with messages := s.messages ++ [m0 s.messages] }) := by
  rw [run_loop_succ_of_ok (okModel m0) runTool fuel s (m0 s.messages) rfl]
  rfl

lemma run_loop_frame (model : List Msg → Except String Msg) (runTool : ToolCall → String) :
    ∀ (fuel : Nat) (s s2 : AgentState),
      run_loop model runTool fuel s = some (Except.ok s2) →
      s2.user_query = s.user_query ∧ s2.context = s.context ∧ s2.response = s.response := by
  intro fuel
  induction fuel with
  | zero =>
    intro s s2 h
    simp [run_loop] at h
  | succ n ih =>
    intro s s2 h
    simp only [run_loop] at h
    split at h
    · simp at h
    · rename_i s1 heq
      split at h
      · have h1 := call_model_frame model s s1 heq
        have h2 := tool_node_frame runTool s1
        have h3 := ih (tool_node runTool s1) s2 h
        exact ⟨h3.1.trans (h2.1.trans h1.1), h3.2.1.trans (h2.2.1.trans h1.2.1),
               h3.2.2.trans (h2.2.2.trans h1.2.2)⟩
      · simp only [Option.some.injEq, Except.ok.injEq] at h
        subst h
        exact call_model_frame model s s1 heq

lemma run_loop_extends (model : List Msg → Except String Msg) (runTool : ToolCall → String) :
    ∀ (fuel : Nat) (s s2 : AgentState),
      run_loop model runTool fuel s = some (Except.ok s2) →
      ∃ t, s2.messages = s.messages ++ t := by
  intro fuel
  induction fuel with
  | zero =>
    intro s s2 h
    simp [run_loop] at h
  | succ n ih =>
    intro s s2 h
    simp only [run_loop] at h
    split at h
    · simp at h
    · rename_i s1 heq
      obtain ⟨r, hr⟩ := call_model_extends model s s1 heq
      split at h
      · obtain ⟨t1, ht1⟩ := tool_node_extends runTool s1
        obtain ⟨t2, ht2⟩ := ih (tool_node runTool s1) s2 h
        exact ⟨r :: (t1 ++ t2), by simp [ht2, ht1, hr]⟩
      · simp only [Option.some.injEq, Except.ok.injEq] at h
        subst h
        exact ⟨[r], hr⟩

lemma run_loop_okModel_no_error (m0 : List Msg → Msg) (runTool : ToolCall → String) :
    ∀ (fuel : Nat) (s : AgentState) (e : String),
      run_loop (okModel m0) runTool fuel s ≠ some (Except.error e) := by
  intro fuel
  induction fuel with
  | zero =>
    intro s e h
    simp [run_loop] at h
  | succ n ih =>
    intro s e h
    rw [run_loop_okModel_succ] at h
    split at h
    · exact ih (agent_round m0 runTool s) e h
    · simp at h

/-! ### Helper lemmas about the checkpoint store -/

lemma Store.get_set_self (store : Store) (k : PyKey) (v : AgentState) :
    Store.get (Store.set store k v) k = some v := by
  induction store with
  | nil => simp [Store.set, Store.get]
  | cons p rest ih =>
    obtain ⟨k1, v1⟩ := p
    by_cases h : k1 = k
    · simp [Store.set, Store.get, h]
    · simp [Store.set, Store.get, h, ih]

lemma Store.get_set_other (store : Store) (k k2 : PyKey) (v : AgentState)
    (hne : k2 ≠ k) :
    Store.get (Store.set store k v) k2 = Store.get store k2 := by
  induction store with
  | nil =>
    simp [Store.set, Store.get, Ne.symm hne]
  | cons p rest ih =>
    obtain ⟨k1, v1⟩ := p
    by_cases h : k1 = k
    · subst h
      simp [Store.set, Store.get, Ne.symm hne, ih]
    · simp [Store.set, Store.get, h, ih]

lemma msgs_of_set_self (store : Store) (k : PyKey) (v : AgentState) :
    msgs_of (Store.set store k v) k = v.messages := by
  simp [msgs_of, Store.get_set_self]

lemma msgs_of_set_other (store : Store) (k k2 : PyKey) (v : AgentState)
    (hne : k2 ≠ k) :
    msgs_of (Store.set store k v) k2 = msgs_of store k2 := by
  simp [msgs_of, Store.get_set_other store k k2 v hne]

/-! ### Helper lemmas about `chat` -/

lemma loop_input_messages (sp : String) (store : Store) (tid : PyKey) (ui : String) :
    (loop_input sp store tid ui).messages
      = msgs_of store tid
          ++ ((if is_new_thread store tid then [Msg.system sp] else [])
                ++ [Msg.human ui]) := rfl

lemma chat_of_run_none (model : List Msg → Except String Msg) (runTool : ToolCall → String)
    (fuel : Nat) (sp : String) (store : Store) (tid : PyKey) (ui : String)
    (hr : run_loop model runTool fuel (loop_input sp store tid ui) = none) :
    chat model runTool fuel sp store tid ui = none := by
  unfold loop_input at hr
  unfold chat graph_invoke
  rw [hr]

lemma chat_of_run_error (model : List Msg → Except String Msg) (runTool : ToolCall → String)
    (fuel : Nat) (sp : String) (store : Store) (tid : PyKey) (ui : String) (e : String)
    (hr : run_loop model runTool fuel (loop_input sp store tid ui) = some (Except.error e)) :
    chat model runTool fuel sp store tid ui
      = some ("I encountered an error while processing your request: " ++ e, store) := by
  unfold loop_input at hr
  unfold chat graph_invoke
  rw [hr]

lemma chat_of_run_ok (model : List Msg → Except String Msg) (runTool : ToolCall → String)
    (fuel : Nat) (sp : String) (store : Store) (tid : PyKey) (ui : String)
    (s2 : AgentState) (m : Msg)
    (hr : run_loop model runTool fuel (loop_input sp store tid ui) = some (Except.ok s2))
    (hm : s2.messages.getLast? = some m) :
    chat model runTool fuel sp store tid ui
      = some (final_to_text (PyObj.msg m), Store.set store tid s2) := by
  unfold loop_input at hr
  unfold chat graph_invoke
  rw [hr]
  simp only [hm]

lemma run_loop_ok_last (model : List Msg → Except String Msg) (runTool : ToolCall → String)
    (fuel : Nat) (sp : String) (store : Store) (tid : PyKey) (ui : String) (s2 : AgentState)
    (hr : run_loop model runTool fuel (loop_input sp store tid ui) = some (Except.ok s2)) :
    ∃ m, s2.messages.getLast? = some m := by
  obtain ⟨t, ht⟩ := run_loop_extends model runTool fuel _ s2 hr
  rw [loop_input_messages] at ht
  have hne : s2.messages ≠ [] := by
    rw [ht]
    simp
  exact Option.isSome_iff_exists.mp (List.getLast?_isSome.mpr hne)

lemma msgs_of_none (store : Store) (k : PyKey) (h : Store.get store k = none) :
    msgs_of store k = [] := by
  unfold msgs_of
  rw [h]

lemma is_new_thread_none (store : Store) (tid : PyKey)
    (h : Store.get store (pyStr_of tid) = none) :
    is_new_thread store tid = true := by
  unfold is_new_thread
  rw [h]
  rfl

lemma loop_input_nil (sp ui : String) (tid : PyKey) :
    loop_input sp [] tid ui = fresh_state sp ui := rfl

lemma loop_input_single_other (sp ui : String) (tid1 tid2 : PyKey) (v : AgentState)
    (hne : tid1 ≠ tid2) (hco : tid1 ≠ pyStr_of tid2) :
    loop_input sp [(tid1, v)] tid2 ui = fresh_state sp ui := by
  have hg1 : Store.get [(tid1, v)] tid2 = none := by
    simp [Store.get, hne]
  have hg2 : Store.get [(tid1, v)] (pyStr_of tid2) = none := by
    simp [Store.get, hco]
  unfold loop_input merge_input chat_initial fresh_state
  rw [msgs_of_none _ _ hg1, is_new_thread_none _ _ hg2]
  simp

lemma chat_extends (model : List Msg → Except String Msg) (runTool : ToolCall → String)
    (fuel : Nat) (sp : String) (store : Store) (tid : PyKey) (ui t : String)
    (store2 : Store)
    (h : chat model runTool fuel sp store tid ui = some (t, store2)) :
    ∃ tail, msgs_of store2 tid = msgs_of store tid ++ tail := by
  cases hr : run_loop model runTool fuel (loop_input sp store tid ui) with
  | none =>
    rw [chat_of_run_none model runTool fuel sp store tid ui hr] at h
    exact absurd h (by simp)
  | some res =>
    cases res with
    | error e =>
      rw [chat_of_run_error model runTool fuel sp store tid ui e hr] at h
      simp only [Option.some.injEq, Prod.mk.injEq] at h
      obtain ⟨ht, hst⟩ := h
      subst hst
      exact ⟨[], by simp⟩
    | ok s2 =>
      obtain ⟨m, hm⟩ := run_loop_ok_last model runTool fuel sp store tid ui s2 hr
      rw [chat_of_run_ok model runTool fuel sp store tid ui s2 m hr hm] at h
      simp only [Option.some.injEq, Prod.mk.injEq] at h
      obtain ⟨ht, hst⟩ := h
      obtain ⟨t2, ht2⟩ := run_loop_extends model runTool fuel _ s2 hr
      refine ⟨((if is_new_thread store tid then [Msg.system sp] else [])
                ++ [Msg.human ui]) ++ t2, ?_⟩
      rw [← hst, msgs_of_set_self, ht2, loop_input_messages]
      simp [List.append_assoc]

lemma chat_okModel_extends (m0 : List Msg → Msg) (runTool : ToolCall → String)
    (fuel : Nat) (sp : String) (store : Store) (tid : PyKey) (ui t : String)
    (store2 : Store)
    (h : chat (okModel m0) runTool fuel sp store tid ui = some (t, store2)) :
    ∃ tail, msgs_of store2 tid = msgs_of store tid ++ tail ∧ Msg.human ui ∈ tail := by
  cases hr : run_loop (okModel m0) runTool fuel (loop_input sp store tid ui) with
  | none =>
    rw [chat_of_run_none (okModel m0) runTool fuel sp store tid ui hr] at h
    exact absurd h (by simp)
  | some res =>
    cases res with
    | error e =>
      exact absurd hr (run_loop_okModel_no_error m0 runTool fuel _ e)
    | ok s2 =>
      obtain ⟨m, hm⟩ := run_loop_ok_last (okModel m0) runTool fuel sp store tid ui s2 hr
      rw [chat_of_run_ok (okModel m0) runTool fuel sp store tid ui s2 m hr hm] at h
      simp only [Option.some.injEq, Prod.mk.injEq] at h
      obtain ⟨ht, hst⟩ := h
      obtain ⟨t2, ht2⟩ := run_loop_extends (okModel m0) runTool fuel _ s2 hr
      refine ⟨((if is_new_thread store tid then [Msg.system sp] else [])
                ++ [Msg.human ui]) ++ t2, ?_, ?_⟩
      · rw [← hst, msgs_of_set_self, ht2, loop_input_messages]
        simp [List.append_assoc]
      · simp

/-! ### The claims -/

/-- Claim C2: after each model invocation in the Deciding state, a reply
without tool calls is appended as the assistant turn and the loop
terminates with exactly that state (so the reply is the final message);
a reply with tool calls is appended and the loop transitions to the
tools node; and the `should_continue` branch depends only on the last
message of the transcript. -/
theorem claim_C2_decide_branch (model : List Msg → Except String Msg)
    (runTool : ToolCall → String) (fuel : Nat) (s : AgentState) (reply : Msg)
    (h : model s.messages = Except.ok reply) :
    (has_tool_calls reply = false →
        run_loop model runTool (fuel + 1) s
          = some (Except.ok { s with messages := s.messages ++ [reply] })
          ∧ ({ s with messages := s.messages ++ [reply] } : AgentState).messages.getLast?
              = some reply)
  ∧ (has_tool_calls reply = true →
        should_continue { s with messages := s.messages ++ [reply] } = "tools"
          ∧ run_loop model runTool (fuel + 1) s
              = run_loop model runTool fuel
                  (tool_node runTool { s with messages := s.messages ++ [reply] }))
  ∧ (∀ s1 s2 : AgentState, s1.messages.getLast? = s2.messages.getLast? →
        should_continue s1 = should_continue s2) := by
  refine ⟨?_, ?_, ?_⟩
  · intro htext
    refine ⟨?_, List.getLast?_concat _⟩
    rw [run_loop_succ_of_ok model runTool fuel s reply h, htext]
    simp
  · intro htools
    constructor
    · rw [should_continue_concat, htools]
      simp
    · rw [run_loop_succ_of_ok model runTool fuel s reply h, htools]
      simp
  · intro s1 s2 hl
    unfold should_continue
    rw [hl]

/-- Witness for C2 at a concrete input: `demoModel` answers in plain
text, so one round ends the loop with the reply appended. -/
theorem claim_C2_decide_branch_witness :
    run_loop demoModel demoTool 1 demoState = some (Except.ok demoState1) :=
  ((claim_C2_decide_branch demoModel demoTool 0 demoState (Msg.ai "hello" []) rfl).1 rfl).1

/-- Claim C5: when the model's reply carries tool calls, the state the
loop hands to the next model invocation extends the transcript with the
assistant turn followed by exactly one tool-result turn per `ToolCall`,
in order, each carrying the requesting call's identifier; in particular
the number of appended results equals the number of calls, so no call is
left pending when the model runs again. -/
theorem claim_C5_tool_results (model : List Msg → Except String Msg)
    (runTool : ToolCall → String) (fuel : Nat) (s : AgentState)
    (c : String) (tcs : List ToolCall)
    (h : model s.messages = Except.ok (Msg.ai c tcs)) (hne : tcs ≠ []) :
    run_loop model runTool (fuel + 1) s
      = run_loop model runTool fuel
          { s with messages := (s.messages ++ [Msg.ai c tcs])
              ++ tcs.map fun tc => Msg.tool tc.id (runTool tc) }
  ∧ (tcs.map fun tc => Msg.tool tc.id (runTool tc)).length = tcs.length := by
  have htools : has_tool_calls (Msg.ai c tcs) = true := by
    simp [has_tool_calls, hne]
  constructor
  · rw [run_loop_succ_of_ok model runTool fuel s (Msg.ai c tcs) h, htools,
        tool_node_concat_ai]
    simp
  · exact List.length_map tcs _

/-- Witness for C5 at a concrete input: a reply with one tool call makes
the loop hand the next round a transcript ending in the matching tool
result. -/
theorem claim_C5_tool_results_witness :
    run_loop (okModel twoPhaseReply) demoTool 1 (fresh_state "SYS" "hi")
      = run_loop (okModel twoPhaseReply) demoTool 0
          { fresh_state "SYS" "hi" with
            messages := ((fresh_state "SYS" "hi").messages
                ++ [Msg.ai "checking" [{ id := "call1", name := "get_address_details",
                                         args := "addr1" }]])
              ++ [Msg.tool "call1" "tool-output"] } :=
  (claim_C5_tool_results (okModel twoPhaseReply) demoTool 0 (fresh_state "SYS" "hi")
    "checking" [{ id := "call1", name := "get_address_details", args := "addr1" }]
    rfl (by simp)).1

/-- Claim C8: `is_new_thread` consults the checkpoint under the
converted key `str(thread_id)` and answers "new" exactly when that entry
is absent, while the graph writes under the unconverted key; for an
integer id the two keys always differ, so a checkpoint written under the
execution key is invisible to new-thread detection (for a string id the
conversion is the identity and the keys agree). -/
theorem claim_C8_key_mismatch (store : Store) (n : Int) (v : AgentState) :
    (is_new_thread store (PyKey.pyInt n) = true
        ↔ Store.get store (pyStr_of (PyKey.pyInt n)) = none)
  ∧ pyStr_of (PyKey.pyInt n) ≠ PyKey.pyInt n
  ∧ is_new_thread (Store.set store (PyKey.pyInt n) v) (PyKey.pyInt n)
      = is_new_thread store (PyKey.pyInt n)
  ∧ ∀ s : String, pyStr_of (PyKey.pyStr s) = PyKey.pyStr s := by
  refine ⟨?_, ?_, ?_, fun s => rfl⟩
  · simp [is_new_thread, Option.isNone_iff_eq_none]
  · simp [pyStr_of]
  · unfold is_new_thread
    rw [Store.get_set_other store (PyKey.pyInt n) (pyStr_of (PyKey.pyInt n)) v
          (by simp [pyStr_of])]

/-- Claim C9: the `user_query`, `context` and `response` channels are
frame-preserved: `chat` initialises them to the user input and two empty
strings, and neither the model node, nor the tools node, nor any number
of loop steps changes them — only `messages` evolves. -/
theorem claim_C9_frame (model : List Msg → Except String Msg)
    (runTool : ToolCall → String) (fuel : Nat) (sp ui : String) (store : Store)
    (tid : PyKey) (s s1 s2 : AgentState)
    (hm : call_model model s = Except.ok s1)
    (hr : run_loop model runTool fuel s = some (Except.ok s2)) :
    ((chat_initial sp store tid ui).user_query = ui
       ∧ (chat_initial sp store tid ui).context = ""
       ∧ (chat_initial sp store tid ui).response = "")
  ∧ (s1.user_query = s.user_query ∧ s1.context = s.context ∧ s1.response = s.response)
  ∧ ((tool_node runTool s).user_query = s.user_query
       ∧ (tool_node runTool s).context = s.context
       ∧ (tool_node runTool s).response = s.response)
  ∧ (s2.user_query = s.user_query ∧ s2.context = s.context ∧ s2.response = s.response) :=
  ⟨⟨rfl, rfl, rfl⟩, call_model_frame model s s1 hm, tool_node_frame runTool s,
    run_loop_frame model runTool fuel s s2 hr⟩

/-- Witness for C9 at a concrete input: one loop round with `demoModel`
leaves the three non-message channels untouched. -/
theorem claim_C9_frame_witness :
    demoState1.user_query = demoState.user_query
      ∧ demoState1.context = demoState.context
      ∧ demoState1.response = demoState.response :=
  (claim_C9_frame demoModel demoTool 1 "SYS" "hi" [] (PyKey.pyInt 1)
    demoState demoState1 demoState1 rfl rfl).2.2.2

/-- Claim C10: the returned text comes from the final message via the
`hasattr(final_message, 'content')` probe: a message with a `content`
attribute yields exactly that content (the empty string included), and
an object without one yields its `str()` representation instead of a
failure; on a successful run `chat` returns exactly this extraction of
the loop's final message. -/
theorem claim_C10_final_content (model : List Msg → Except String Msg)
    (runTool : ToolCall → String) (fuel : Nat) (sp : String) (store : Store)
    (tid : PyKey) (ui : String) (s2 : AgentState) (m : Msg)
    (hr : run_loop model runTool fuel (loop_input sp store tid ui)
        = some (Except.ok s2))
    (hm : s2.messages.getLast? = some m) :
    chat model runTool fuel sp store tid ui
      = some (final_to_text (PyObj.msg m), Store.set store tid s2)
  ∧ final_to_text (PyObj.msg m) = msg_content m
  ∧ (∀ r : String, final_to_text (PyObj.other r) = r)
  ∧ final_to_text (PyObj.msg (Msg.ai "" [])) = "" :=
  ⟨chat_of_run_ok model runTool fuel sp store tid ui s2 m hr hm, rfl,
    fun _ => rfl, rfl⟩

/-- Witness for C10 at a concrete input: a fresh thread's first answer is
returned as the final assistant message's content. -/
theorem claim_C10_final_content_witness :
    chat demoModel demoTool 1 "SYS" [] (PyKey.pyInt 1) "hi"
      = some ("hello", [(PyKey.pyInt 1, demoFinal)]) :=
  (claim_C10_final_content demoModel demoTool 1 "SYS" [] (PyKey.pyInt 1) "hi"
    demoFinal (Msg.ai "hello" []) rfl rfl).1

/-- Claim C1 fails on the code.  With the integer thread id `1` — the
type the repository's own callers pass (`CardanoChatbot(thread_id: int)`,
`kickoff_cardanoAgent(thread_id: int, ...)`) — the first `chat` does
produce a transcript beginning with exactly one system turn followed by
the user turn, but the second `chat` on the same identifier prepends a
second system turn: `is_new_thread` looks the checkpoint up under the
converted key `"1"` while `graph.invoke` stored it under the unconverted
key `1`, so the thread is classified as new on every call. -/
theorem claim_C1_system_prompt_duplicated :
    chat demoModel demoTool 1 "SYS" [] (PyKey.pyInt 1) "hi"
      = some ("hello", [(PyKey.pyInt 1, demoFinal)])
  ∧ (msgs_of [(PyKey.pyInt 1, demoFinal)] (PyKey.pyInt 1)).take 2
      = [Msg.system "SYS", Msg.human "hi"]
  ∧ (msgs_of [(PyKey.pyInt 1, demoFinal)] (PyKey.pyInt 1)).countP is_system = 1
  ∧ chat demoModel demoTool 1 "SYS" [(PyKey.pyInt 1, demoFinal)] (PyKey.pyInt 1) "again"
      = some ("hello", [(PyKey.pyInt 1, demoFinal2)])
  ∧ (msgs_of [(PyKey.pyInt 1, demoFinal2)] (PyKey.pyInt 1)).countP is_system = 2 :=
  ⟨rfl, rfl, rfl, rfl, rfl⟩

/-- Claim C3: the loop has no iteration cap.  For a model that keeps
requesting tools for the first `N` rounds, the loop is still running at
every fuel bound up to `N`; and as soon as the model's reply at round `N`
is plain text, the loop terminates (with fuel `N + 1`) in a state whose
final message is that text reply. -/
theorem claim_C3_termination (m0 : List Msg → Msg) (runTool : ToolCall → String)
    (N : Nat) (s : AgentState)
    (htext : has_tool_calls (m0 (pre_round m0 runTool s N).messages) = false)
    (hloop : ∀ k, k < N → has_tool_calls (m0 (pre_round m0 runTool s k).messages) = true) :
    (∀ fuel, fuel ≤ N → run_loop (okModel m0) runTool fuel s = none)
  ∧ ∃ s2 r, run_loop (okModel m0) runTool (N + 1) s = some (Except.ok s2)
      ∧ s2.messages.getLast? = some r ∧ has_tool_calls r = false := by
  induction N generalizing s with
  | zero =>
    simp only [pre_round] at htext
    refine ⟨?_, ⟨{ s with messages := s.messages ++ [m0 s.messages] },
                 m0 s.messages, ?_, ?_, ?_⟩⟩
    · intro fuel hf
      have h0 : fuel = 0 := Nat.le_zero.mp hf
      subst h0
      rfl
    · rw [run_loop_okModel_succ, htext]
      simp
    · exact List.getLast?_concat _
    · exact htext
  | succ n ih =>
    have h0 : has_tool_calls (m0 s.messages) = true := by
      have h1 := hloop 0 (Nat.succ_pos n)
      simpa only [pre_round] using h1
    have ihres := ih (agent_round m0 runTool s)
      (by simpa only [pre_round] using htext)
      (fun k hk => by
        have h2 := hloop (k + 1) (Nat.succ_lt_succ hk)
        simpa only [pre_round] using h2)
    refine ⟨?_, ?_⟩
    · intro fuel hf
      cases fuel with
      | zero => rfl
      | succ f =>
        rw [run_loop_okModel_succ, h0]
        simp only [if_pos rfl]
        exact ihres.1 f (Nat.succ_le_succ_iff.mp hf)
    · obtain ⟨s2, r, hrun, hlast, hrt⟩ := ihres.2
      refine ⟨s2, r, ?_, hlast, hrt⟩
      rw [run_loop_okModel_succ, h0]
      simpa using hrun

/-- Witness for C3 at a concrete input: `twoPhaseReply` requests a tool
on round 0 and answers in round 1, so fuel 1 is not enough and fuel 2
terminates with a text reply. -/
theorem claim_C3_termination_witness :
    run_loop (okModel twoPhaseReply) demoTool 1 (fresh_state "SYS" "hi") = none
  ∧ ∃ s2 r, run_loop (okModel twoPhaseReply) demoTool 2 (fresh_state "SYS" "hi")
        = some (Except.ok s2)
      ∧ s2.messages.getLast? = some r ∧ has_tool_calls r = false := by
  have h := claim_C3_termination twoPhaseReply demoTool 1 (fresh_state "SYS" "hi") rfl
    (fun k hk => by
      have h0 : k = 0 := Nat.lt_one_iff.mp hk
      subst h0
      rfl)
  exact ⟨h.1 1 (le_refl 1), h.2⟩

/-- Claim C4: `chat` never lets an exception reach its caller.  If the
loop raises (the Model Client included), `chat` returns the user-facing
apologetic message carrying the error detail, with the store as it was
before the call; if the loop completes, `chat` returns some text together
with the updated store.  (The `none` case of the model is a run that is
still in progress, not a raised exception.) -/
theorem claim_C4_no_exception (model : List Msg → Except String Msg)
    (runTool : ToolCall → String) (fuel : Nat) (sp : String) (store : Store)
    (tid : PyKey) (ui : String) :
    (∀ e, run_loop model runTool fuel (loop_input sp store tid ui)
          = some (Except.error e) →
        chat model runTool fuel sp store tid ui
          = some ("I encountered an error while processing your request: " ++ e, store))
  ∧ (∀ s2, run_loop model runTool fuel (loop_input sp store tid ui)
          = some (Except.ok s2) →
        ∃ t, chat model runTool fuel sp store tid ui = some (t, Store.set store tid s2)) := by
  constructor
  · intro e hr
    exact chat_of_run_error model runTool fuel sp store tid ui e hr
  · intro s2 hr
    obtain ⟨m, hm⟩ := run_loop_ok_last model runTool fuel sp store tid ui s2 hr
    exact ⟨final_to_text (PyObj.msg m),
           chat_of_run_ok model runTool fuel sp store tid ui s2 m hr hm⟩

/-- Witness for C4 at a concrete input: a model that raises `"boom"`
makes `chat` return the apologetic message with the detail, not an
exception. -/
theorem claim_C4_no_exception_witness :
    chat failModel demoTool 1 "SYS" [] (PyKey.pyInt 1) "hi"
      = some ("I encountered an error while processing your request: boom", []) :=
  (claim_C4_no_exception failModel demoTool 1 "SYS" [] (PyKey.pyInt 1) "hi").1 "boom" rfl

/-- Claim C6: across any sequence of `chat` calls on the same thread
identifier the stored transcript only ever grows by appending (so its
length is monotonically non-decreasing and nothing is removed or
reordered), and when the model delivers replies (never raises) the
submitted user messages all appear in the appended part, in submission
order. -/
theorem claim_C6_append_only (model : List Msg → Except String Msg)
    (runTool : ToolCall → String) (fuel : Nat) (sp : String) (tid : PyKey)
    (uis : List String) (store store2 : Store)
    (h : run_chats model runTool fuel sp tid uis store = some store2) :
    (∃ tail, msgs_of store2 tid = msgs_of store tid ++ tail)
  ∧ ∀ m0, model = okModel m0 →
      ∃ tail, msgs_of store2 tid = msgs_of store tid ++ tail
        ∧ List.Sublist (uis.map Msg.human) tail := by
  induction uis generalizing store with
  | nil =>
    simp only [run_chats, Option.some.injEq] at h
    subst h
    exact ⟨⟨[], by simp⟩, fun m0 hm => ⟨[], by simp⟩⟩
  | cons ui rest ih =>
    simp only [run_chats] at h
    cases hc : chat model runTool fuel sp store tid ui with
    | none =>
      rw [hc] at h
      exact absurd h (by simp)
    | some p =>
      obtain ⟨t1, store1⟩ := p
      rw [hc] at h
      have ihres := ih store1 h
      constructor
      · obtain ⟨ta, hta⟩ := chat_extends model runTool fuel sp store tid ui t1 store1 hc
        obtain ⟨tb, htb⟩ := ihres.1
        exact ⟨ta ++ tb, by rw [htb, hta, List.append_assoc]⟩
      · intro m0 hm
        subst hm
        obtain ⟨ta, hta, hmem⟩ :=
          chat_okModel_extends m0 runTool fuel sp store tid ui t1 store1 hc
        obtain ⟨tb, htb, hsub⟩ := ihres.2 m0 rfl
        refine ⟨ta ++ tb, by rw [htb, hta, List.append_assoc], ?_⟩
        have h1 : List.Sublist [Msg.human ui] ta := List.singleton_sublist.mpr hmem
        simpa using List.Sublist.append h1 hsub

/-- Witness for C6 at a concrete input: submitting `"a"` then `"b"` to
integer thread `5` grows the (initially empty) transcript by a tail that
contains both user messages in order. -/
theorem claim_C6_append_only_witness :
    ∃ tail, msgs_of chatTwiceStore (PyKey.pyInt 5)
        = msgs_of ([] : Store) (PyKey.pyInt 5) ++ tail
      ∧ List.Sublist (["a", "b"].map Msg.human) tail :=
  (claim_C6_append_only demoModel demoTool 1 "SYS" (PyKey.pyInt 5) ["a", "b"]
    [] chatTwiceStore rfl).2 demoReply rfl

/-- The original claim C7 is false on the code: two distinct fresh
identifiers are not always independent.  With the string id `"2"` for
the first call and the integer id `2` for the second, the second call's
`is_new_thread` probe reads the checkpoint the first call stored (its
key `str(2) = "2"` collides with the first thread's key), classifies the
thread as old, and omits the system prompt — so the second transcript
differs from the one the very same call produces on an untouched store. -/
theorem claim_C7_counterexample :
    chat demoModel demoTool 1 "SYS" [] (PyKey.pyStr "2") "hi"
      = some ("hello", [(PyKey.pyStr "2", demoFinal)])
  ∧ (chat demoModel demoTool 1 "SYS" [(PyKey.pyStr "2", demoFinal)]
        (PyKey.pyInt 2) "hi").map (fun r => msgs_of r.2 (PyKey.pyInt 2))
      ≠ (chat demoModel demoTool 1 "SYS" [] (PyKey.pyInt 2) "hi").map
          (fun r => msgs_of r.2 (PyKey.pyInt 2)) := by
  constructor
  · rfl
  · decide

/-- Claim C7 as amended: invoking the loop twice with identical user
input on two distinct fresh thread identifiers — provided, as the
counterexample forces, that the first identifier is not the string form
of the second — produces the same answer and independent transcripts:
the second execution stores under its own key the same state the first
stored under its key, and leaves the first thread's entry untouched. -/
theorem claim_C7_thread_independence (model : List Msg → Except String Msg)
    (runTool : ToolCall → String) (fuel : Nat) (sp ui : String)
    (tid1 tid2 : PyKey) (t1 t2 : String) (st1 st2 : Store)
    (hne : tid1 ≠ tid2) (hco : tid1 ≠ pyStr_of tid2)
    (h1 : chat model runTool fuel sp [] tid1 ui = some (t1, st1))
    (h2 : chat model runTool fuel sp st1 tid2 ui = some (t2, st2)) :
    t2 = t1 ∧ Store.get st2 tid2 = Store.get st1 tid1
      ∧ Store.get st2 tid1 = Store.get st1 tid1 := by
  cases hr : run_loop model runTool fuel (fresh_state sp ui) with
  | none =>
    rw [chat_of_run_none model runTool fuel sp [] tid1 ui
          (by rw [loop_input_nil]; exact hr)] at h1
    exact absurd h1 (by simp)
  | some res =>
    cases res with
    | error e =>
      rw [chat_of_run_error model runTool fuel sp [] tid1 ui e
            (by rw [loop_input_nil]; exact hr)] at h1
      simp only [Option.some.injEq, Prod.mk.injEq] at h1
      obtain ⟨ht1, hst1⟩ := h1
      subst hst1
      rw [chat_of_run_error model runTool fuel sp [] tid2 ui e
            (by rw [loop_input_nil]; exact hr)] at h2
      simp only [Option.some.injEq, Prod.mk.injEq] at h2
      obtain ⟨ht2, hst2⟩ := h2
      subst hst2
      exact ⟨ht2.symm.trans ht1, rfl, rfl⟩
    | ok s2 =>
      have hr1 : run_loop model runTool fuel (loop_input sp [] tid1 ui)
          = some (Except.ok s2) := by
        rw [loop_input_nil]
        exact hr
      obtain ⟨m, hm⟩ := run_loop_ok_last model runTool fuel sp [] tid1 ui s2 hr1
      rw [chat_of_run_ok model runTool fuel sp [] tid1 ui s2 m hr1 hm] at h1
      simp only [Option.some.injEq, Prod.mk.injEq] at h1
      obtain ⟨ht1, hst1⟩ := h1
      subst hst1
      have hr2 : run_loop model runTool fuel
          (loop_input sp (Store.set [] tid1 s2) tid2 ui) = some (Except.ok s2) := by
        rw [show (Store.set [] tid1 s2 : Store) = [(tid1, s2)] from rfl,
            loop_input_single_other sp ui tid1 tid2 s2 hne hco]
        exact hr
      rw [chat_of_run_ok model runTool fuel sp (Store.set [] tid1 s2) tid2 ui s2 m hr2 hm]
        at h2
      simp only [Option.some.injEq, Prod.mk.injEq] at h2
      obtain ⟨ht2, hst2⟩ := h2
      subst hst2
      refine ⟨ht2.symm.trans ht1, ?_, ?_⟩
      · simp [Store.get_set_self]
      · simp [Store.get_set_self, Store.get_set_other _ tid2 tid1 s2 hne]

/-- Witness for the amended C7 at a concrete input: fresh integer
threads `1` and `2` given the same input end up with equal, independent
checkpoints. -/
theorem claim_C7_thread_independence_witness :
    ("hello" : String) = "hello"
  ∧ Store.get [(PyKey.pyInt 1, demoFinal), (PyKey.pyInt 2, demoFinal)] (PyKey.pyInt 2)
      = Store.get [(PyKey.pyInt 1, demoFinal)] (PyKey.pyInt 1)
  ∧ Store.get [(PyKey.pyInt 1, demoFinal), (PyKey.pyInt 2, demoFinal)] (PyKey.pyInt 1)
      = Store.get [(PyKey.pyInt 1, demoFinal)] (PyKey.pyInt 1) :=
  claim_C7_thread_independence demoModel demoTool 1 "SYS" "hi"
    (PyKey.pyInt 1) (PyKey.pyInt 2) "hello" "hello"
    [(PyKey.pyInt 1, demoFinal)]
    [(PyKey.pyInt 1, demoFinal), (PyKey.pyInt 2, demoFinal)]
    (by decide) (by decide) rfl rfl
